import Mathlib

/-!
Verification of the pseudo-version detection and comparison engine of
check-untagged-go-deps (src/main.go).

The pure core — the regex classifier `pseudoVersionRe`, the timestamp
extractor `extractTimestamp`, the comparator `newerVersion`, the manifest
scanner `findPseudoVersionedDeps`, the default-branch resolver
`getLatestVersion` and the aggregator `checkForUpdates` — is embedded
shallowly.  The external resolver (`queryModuleVersion`, which shells out
to the go tool) is modelled as a function parameter returning either a
version string or an error-message string, matching the substring
classification performed on its error text in `getLatestVersion`.
-/

set_option maxHeartbeats 1000000

namespace CheckDeps

/-- Characters accepted by the regex class [0-9]. -/
def isDigitCh (c : Char) : Bool := decide ('0' ≤ c) && decide (c ≤ '9')

/-- Characters accepted by the regex class [a-f0-9]. -/
def isHexLowerCh (c : Char) : Bool :=
  isDigitCh c || (decide ('a' ≤ c) && decide (c ≤ 'f'))

/-- Matching of the whole regex `[0-9]{14}-[a-f0-9]{12}` against a list of
exactly 27 characters: 14 digits, a hyphen, 12 lowercase hex characters. -/
def matchesPseudoSuffix (cs : List Char) : Bool :=
  decide (cs.length = 27) && (cs.take 14).all isDigitCh &&
  decide ((cs.drop 14).headD ' ' = '-') && (cs.drop 15).all isHexLowerCh

/-- Embedding of `pseudoVersionRe.MatchString`, the regex
`[0-9]{14}-[a-f0-9]{12}$` (src/main.go line 109).  The pattern has fixed
length 27 and is anchored at the end, so the string matches exactly when
its final 27 characters have the required shape. -/
def isPseudoVersion (s : String) : Bool :=
  matchesPseudoSuffix (s.data.drop (s.data.length - 27))

/-- A 14-digit window starts at the head of `cs`: embedding of a match of
the regex `[0-9]{14}` anchored at the current scan position. -/
def digitWindow (cs : List Char) : Bool :=
  decide ((cs.take 14).length = 14) && (cs.take 14).all isDigitCh

/-- Leftmost-match search of `timestampRe.FindString` (src/main.go
line 251): scan positions left to right, return the first 14-digit run. -/
def extractTimestampAux : List Char → Option (List Char)
  | [] => none
  | c :: cs =>
    if digitWindow (c :: cs) then some ((c :: cs).take 14)
    else extractTimestampAux cs

/-- Whether some run of 14 consecutive decimal digits occurs in `cs`. -/
def containsRun14 : List Char → Bool
  | [] => false
  | c :: cs => digitWindow (c :: cs) || containsRun14 cs

/-- Errors produced by the core (src/main.go): the no-timestamp error of
`extractTimestamp`, the no-default-branch error of `getLatestVersion`, a
propagated resolver error carrying its message, and the per-module
wrapping performed by `checkForUpdates`. -/
inductive GoError where
  | noTimestampFound (version : String)
  | noDefaultBranch
  | resolverFailure (msg : String)
  | checking (modulePath : String) (err : GoError)
deriving DecidableEq

/-- Embedding of `extractTimestamp` (src/main.go lines 253-259). -/
def extractTimestamp (version : String) : Except GoError String :=
  match extractTimestampAux version.data with
  | some t => .ok (String.mk t)
  | none => .error (.noTimestampFound version)

/-- Lexicographic (bytewise, here codepoint-wise on ASCII) strict order on
character lists, as used by the go string comparison operators. -/
def listLtCh : List Char → List Char → Bool
  | [], [] => false
  | [], _ :: _ => true
  | _ :: _, [] => false
  | a :: as, b :: bs =>
    if a < b then true else if b < a then false else listLtCh as bs

/-- Go string comparison `a >= b`. -/
def goStringGe (a b : String) : Bool := ! listLtCh a.data b.data

/-- Embedding of `newerVersion` (src/main.go lines 235-248). -/
def newerVersion (a b : String) : Except GoError String :=
  match extractTimestamp a with
  | .error e => .error e
  | .ok tsA =>
    match extractTimestamp b with
    | .error e => .error e
    | .ok tsB => if goStringGe tsA tsB then .ok a else .ok b

/-- A parsed go.mod require entry, as supplied to the scanner by
`modfile.Parse` (fields `Mod.Path`, `Mod.Version`, `Indirect`). -/
structure ManifestEntry where
  path : String
  version : String
  indirect : Bool
deriving DecidableEq

/-- Embedding of the `dependency` struct (src/main.go lines 100-103). -/
structure dependency where
  module : String
  version : String
deriving DecidableEq

/-- Embedding of the loop of `findPseudoVersionedDeps` over the parsed
require entries (src/main.go lines 122-134); reading and parsing the
go.mod file is the excluded manifest-loading collaborator. -/
def findPseudoVersionedDeps (includeIndirect : Bool) :
    List ManifestEntry → List dependency
  | [] => []
  | req :: rest =>
    if !(isPseudoVersion req.version) then
      findPseudoVersionedDeps includeIndirect rest
    else if req.indirect && !includeIndirect then
      findPseudoVersionedDeps includeIndirect rest
    else
      ⟨req.path, req.version⟩ :: findPseudoVersionedDeps includeIndirect rest

/-- The external version resolver (`queryModuleVersion`): given a module
path and a branch, either a version string or an error-message string.
`getLatestVersion` classifies the message by substring. -/
def Resolver : Type := String → String → Except String String

/-- Substring containment at the head. -/
def listStartsWith : List Char → List Char → Bool
  | [], _ => true
  | _ :: _, [] => false
  | a :: as, b :: bs => decide (a = b) && listStartsWith as bs

/-- Substring containment anywhere, as `strings.Contains`. -/
def listInfixOf (pat : List Char) : List Char → Bool
  | [] => listStartsWith pat []
  | c :: cs => listStartsWith pat (c :: cs) || listInfixOf pat cs

/-- Embedding of `strings.Contains(s, pat)`. -/
def strContains (s pat : String) : Bool := listInfixOf pat.data s.data

/-- The error-message fragment identifying a missing branch. -/
def unknownRevisionMsg : String := "unknown revision"

/-- The candidate-collection loop of `getLatestVersion` (src/main.go
lines 174-184): a resolver error whose message contains
"unknown revision" skips to the next branch; any other error aborts. -/
def collectVersions (resolver : Resolver) (modulePath : String) :
    List String → Except String (List String)
  | [] => .ok []
  | branch :: rest =>
    match resolver modulePath branch with
    | .error e =>
      if strContains e unknownRevisionMsg then
        collectVersions resolver modulePath rest
      else .error e
    | .ok v =>
      match collectVersions resolver modulePath rest with
      | .error e => .error e
      | .ok vs => .ok (v :: vs)

/-- The selection at the end of `getLatestVersion` (src/main.go
lines 186-195): no version is an error, exactly two are compared by
`newerVersion`, otherwise the first collected version is returned. -/
def pickVersion : List String → Except GoError String
  | [] => .error .noDefaultBranch
  | [v] => .ok v
  | [v, w] => newerVersion v w
  | v :: _ :: _ :: _ => .ok v

/-- Running the `getLatestVersion` body over an explicit candidate list. -/
def runBranches (resolver : Resolver) (modulePath : String)
    (bs : List String) : Except GoError String :=
  match collectVersions resolver modulePath bs with
  | .error e => .error (.resolverFailure e)
  | .ok versions => pickVersion versions

/-- The fixed branch-candidate list (src/main.go line 171). -/
def branches : List String := [("main" : String), ("master" : String)]

/-- Embedding of `getLatestVersion` (src/main.go lines 170-196),
parameterised by the external resolver. -/
def getLatestVersion (resolver : Resolver) (modulePath : String) :
    Except GoError String :=
  runBranches resolver modulePath branches

/-- Embedding of the `update` struct (src/main.go lines 140-144). -/
structure update where
  module : String
  current : String
  latest : String
deriving DecidableEq

/-- Embedding of `checkForUpdates` (src/main.go lines 146-165): resolve
each dependency in order, abort on the first error wrapping it with the
module path, record an update when the current version differs from the
resolved latest. -/
def checkForUpdates (resolver : Resolver) :
    List dependency → Except GoError (List update)
  | [] => .ok []
  | dep :: rest =>
    match getLatestVersion resolver dep.module with
    | .error e => .error (.checking dep.module e)
    | .ok latest =>
      match checkForUpdates resolver rest with
      | .error e => .error e
      | .ok us =>
        if dep.version = latest then .ok us
        else .ok (⟨dep.module, dep.version, latest⟩ :: us)

/-- The update list the spec describes for an all-successes run: one
record per dependency whose current version differs from its resolved
latest, in input order. -/
def expectedUpdates (resolver : Resolver) (deps : List dependency) :
    List update :=
  deps.filterMap fun dep =>
    match getLatestVersion resolver dep.module with
    | .error _ => none
    | .ok latest =>
      if dep.version = latest then none
      else some ⟨dep.module, dep.version, latest⟩

/-- A resolver whose main branch is missing and whose master branch
resolves. -/
def resolverMasterOnly : Resolver := fun _ branch =>
  if branch = ("master") then .ok ("v0.0.0-20231201000000-aaaaaaaaaaaa")
  else .error ("unknown revision abc")

/-- A resolver that always fails with a non-branch-related error. -/
def resolverHardFail : Resolver := fun _ _ => .error ("network failure")

/-- A resolver on which both branches resolve to the same
pseudo-version. -/
def resolverBothOk : Resolver := fun _ _ =>
  .ok ("v0.0.0-20231201000000-aaaaaaaaaaaa")

/-- A resolver on which both branches resolve to a tagged version with no
embedded timestamp. -/
def resolverTagged : Resolver := fun _ _ => .ok ("v1.2.3")

/-- A resolver that succeeds for one module and hard-fails for every
other. -/
def resolverPerModule : Resolver := fun modulePath _ =>
  if modulePath = ("good.example/a") then
    .ok ("v0.0.0-20231201000000-aaaaaaaaaaaa")
  else .error ("network down")

/-- Unfolding of the suffix matcher into its four conjuncts. -/
theorem matchesPseudoSuffix_iff (cs : List Char) :
    matchesPseudoSuffix cs = true ↔
      cs.length = 27 ∧ (cs.take 14).all isDigitCh = true ∧
      (cs.drop 14).headD ' ' = '-' ∧ (cs.drop 15).all isHexLowerCh = true := by
  simp [matchesPseudoSuffix, Bool.and_eq_true, decide_eq_true_eq, and_assoc]

/-- Dropping past an appended block, general index form. -/
theorem drop_append_len (l₁ l₂ : List Char) (n : Nat) :
    (l₁ ++ l₂).drop (l₁.length + n) = l₂.drop n := by
  rw [← List.drop_drop]
  simp [List.drop_left]

/-- A 27-character block satisfying the matcher decomposes as
14 characters, a hyphen, and the final 12 characters. -/
theorem suffix_decomp (t : List Char) (hlen : t.length = 27)
    (hhyph : (t.drop 14).headD ' ' = '-') :
    t = t.take 14 ++ '-' :: t.drop 15 := by
  have hl : (t.drop 14).length = 13 := by rw [List.length_drop, hlen]
  cases hd : t.drop 14 with
  | nil => rw [hd] at hl; simp at hl
  | cons x xs =>
    have hx : x = '-' := by rw [hd] at hhyph; simpa using hhyph
    have hxs : xs = t.drop 15 := by
      have htl := List.tail_drop t 14
      rw [hd] at htl
      simpa using htl
    rw [← hx, ← hxs, ← hd]
    exact (List.take_append_drop 14 t).symm

/-- The classifier accepts exactly the strings whose character list ends
with 14 digits, a hyphen, and 12 lowercase hex characters; any prefix
(including one containing other digit runs) is allowed before it. -/
theorem isPseudoVersion_iff_shape (s : String) :
    isPseudoVersion s = true ↔
      ∃ p ts h, s.data = p ++ ts ++ '-' :: h ∧ ts.length = 14 ∧
        ts.all isDigitCh = true ∧ h.length = 12 ∧ h.all isHexLowerCh = true := by
  unfold isPseudoVersion
  constructor
  · intro hm
    obtain ⟨hlen, hdig, hhyph, hhex⟩ := (matchesPseudoSuffix_iff _).mp hm
    refine ⟨s.data.take (s.data.length - 27),
      (s.data.drop (s.data.length - 27)).take 14,
      (s.data.drop (s.data.length - 27)).drop 15, ?_, ?_, hdig, ?_, hhex⟩
    · rw [List.append_assoc, ← suffix_decomp _ hlen hhyph]
      exact (List.take_append_drop _ _).symm
    · rw [List.length_take, hlen]
      decide
    · rw [List.length_drop, hlen]
  · rintro ⟨p, ts, h, hdata, hts, hdig, hh, hhex⟩
    have hassoc : s.data = p ++ (ts ++ '-' :: h) := by
      rw [hdata, List.append_assoc]
    have hsub : (p ++ (ts ++ '-' :: h)).length - 27 = p.length := by
      simp [List.length_append, hts, hh]
    have hdrop : s.data.drop (s.data.length - 27) = ts ++ '-' :: h := by
      rw [hassoc, hsub]
      exact List.drop_left p (ts ++ '-' :: h)
    rw [hdrop, matchesPseudoSuffix_iff]
    have htake : (ts ++ '-' :: h).take 14 = ts := by
      conv_lhs => rw [show (14 : Nat) = ts.length from hts.symm]
      exact List.take_left ts _
    have hd14 : (ts ++ '-' :: h).drop 14 = '-' :: h := by
      conv_lhs => rw [show (14 : Nat) = ts.length from hts.symm]
      exact List.drop_left ts _
    have hd15 : (ts ++ '-' :: h).drop 15 = h := by
      have hgen := drop_append_len ts ('-' :: h) 1
      rw [hts] at hgen
      simpa using hgen
    refine ⟨?_, ?_, ?_, ?_⟩
    · simp [List.length_append, hts, hh]
    · rw [htake]; exact hdig
    · rw [hd14]; rfl
    · rw [hd15]; exact hhex

/-- The classifier accepts both documented pseudo-version forms. -/
theorem isPseudoVersion_examples :
    isPseudoVersion ("v0.0.0-20231129151722-fdeea329fbba") = true ∧
    isPseudoVersion ("v1.1.1-0.20251215205057-2f3252140e00") = true := by
  exact ⟨by decide, by decide⟩

/-- The scan fails exactly when no 14-digit run occurs. -/
theorem extractTimestampAux_none_iff (cs : List Char) :
    extractTimestampAux cs = none ↔ containsRun14 cs = false := by
  induction cs with
  | nil => simp [extractTimestampAux, containsRun14]
  | cons c cs ih =>
    by_cases hw : digitWindow (c :: cs) = true
    · simp [extractTimestampAux, containsRun14, hw]
    · have hwf : digitWindow (c :: cs) = false := by
        simpa using hw
      simp [extractTimestampAux, containsRun14, hwf, ih]

/-- When the scan succeeds it returns a 14-digit run, and no 14-digit run
starts at any earlier position. -/
theorem extractTimestampAux_some_spec (cs t : List Char)
    (hsome : extractTimestampAux cs = some t) :
    t.length = 14 ∧ t.all isDigitCh = true ∧
    ∃ p q, cs = p ++ t ++ q ∧
      ∀ i, i < p.length → digitWindow (cs.drop i) = false := by
  induction cs with
  | nil => simp [extractTimestampAux] at hsome
  | cons c cs ih =>
    by_cases hw : digitWindow (c :: cs) = true
    · rw [extractTimestampAux, if_pos hw] at hsome
      have ht : (c :: cs).take 14 = t := by injection hsome
      obtain ⟨hlen, hall⟩ : ((c :: cs).take 14).length = 14 ∧
          ((c :: cs).take 14).all isDigitCh = true := by
        unfold digitWindow at hw
        simpa [Bool.and_eq_true, decide_eq_true_eq] using hw
      rw [ht] at hlen hall
      refine ⟨hlen, hall, [], (c :: cs).drop 14, ?_, ?_⟩
      · rw [← ht]
        simp [List.take_append_drop]
      · intro i hi
        exact absurd hi (Nat.not_lt_zero i)
    · rw [extractTimestampAux, if_neg hw] at hsome
      have hwf : digitWindow (c :: cs) = false := by simpa using hw
      obtain ⟨hlen, hall, p, q, hdec, hmin⟩ := ih hsome
      refine ⟨hlen, hall, c :: p, q, by simp [hdec], ?_⟩
      intro i hi
      cases i with
      | zero => simpa using hwf
      | succ j =>
        have hj : j < p.length := by
          simpa using Nat.lt_of_succ_lt_succ hi
        simpa using hmin j hj

/-- With no 14-digit run, extraction reports the no-timestamp error. -/
theorem extractTimestamp_error_of_noRun (s : String)
    (h : containsRun14 s.data = false) :
    extractTimestamp s = .error (.noTimestampFound s) := by
  unfold extractTimestamp
  rw [(extractTimestampAux_none_iff _).mpr h]

/-- With a 14-digit run present, extraction succeeds. -/
theorem extractTimestamp_ok_of_run (s : String)
    (h : containsRun14 s.data = true) :
    ∃ t, extractTimestamp s = .ok t := by
  unfold extractTimestamp
  cases haux : extractTimestampAux s.data with
  | none =>
    rw [extractTimestampAux_none_iff] at haux
    rw [haux] at h
    exact absurd h (by simp)
  | some t => exact ⟨String.mk t, rfl⟩

/-- The lexicographic strict order is irreflexive. -/
theorem listLtCh_irrefl (l : List Char) : listLtCh l l = false := by
  induction l with
  | nil => rfl
  | cons a as ih =>
    rw [listLtCh, if_neg (lt_irrefl a), if_neg (lt_irrefl a)]
    exact ih

/-- Go string `>=` is reflexive. -/
theorem goStringGe_refl (s : String) : goStringGe s s = true := by
  simp [goStringGe, listLtCh_irrefl]

/-- The comparator propagates the no-timestamp error of its first
argument. -/
theorem newerVersion_noRun_left (a b : String)
    (h : containsRun14 a.data = false) :
    newerVersion a b = .error (.noTimestampFound a) := by
  unfold newerVersion
  rw [extractTimestamp_error_of_noRun a h]

/-- The comparator propagates the no-timestamp error of its second
argument when the first has a timestamp. -/
theorem newerVersion_noRun_right (a b : String)
    (ha : containsRun14 a.data = true) (hb : containsRun14 b.data = false) :
    newerVersion a b = .error (.noTimestampFound b) := by
  obtain ⟨ta, hta⟩ := extractTimestamp_ok_of_run a ha
  unfold newerVersion
  rw [hta, extractTimestamp_error_of_noRun b hb]

/-- When both sides carry timestamps the comparator picks by the string
order of the timestamps, ties to the first argument. -/
theorem newerVersion_ok (a b ta tb : String)
    (hta : extractTimestamp a = .ok ta) (htb : extractTimestamp b = .ok tb) :
    newerVersion a b = (if goStringGe ta tb then .ok a else .ok b) := by
  unfold newerVersion
  rw [hta, htb]

/-- C1: the pseudo-version classifier returns true iff the string ends
with 14 decimal digits, a hyphen, and exactly 12 lowercase hex characters
with nothing after; any prefix (earlier digit runs included) is
irrelevant, and `v1.2.3` and `v1.2.3-beta.1` are classified false. -/
theorem pseudoVersion_trailing_pattern :
    (∀ s : String, isPseudoVersion s = true ↔
      ∃ p ts h, s.data = p ++ ts ++ '-' :: h ∧ ts.length = 14 ∧
        ts.all isDigitCh = true ∧ h.length = 12 ∧ h.all isHexLowerCh = true) ∧
    isPseudoVersion ("v1.2.3") = false ∧
    isPseudoVersion ("v1.2.3-beta.1") = false :=
  ⟨isPseudoVersion_iff_shape, by decide, by decide⟩

/-- C2: `newerVersion` fails with the no-timestamp error of `a` when `a`
has no 14-digit run, with that of `b` when only `b` lacks one; otherwise
it returns `a` exactly when `a`'s timestamp is string-`>=` `b`'s, so equal
timestamps return `a`. -/
theorem newerVersion_timestamp_rule :
    (∀ a b : String, containsRun14 a.data = false →
      newerVersion a b = .error (.noTimestampFound a)) ∧
    (∀ a b : String, containsRun14 a.data = true →
      containsRun14 b.data = false →
      newerVersion a b = .error (.noTimestampFound b)) ∧
    (∀ a b ta tb : String, extractTimestamp a = .ok ta →
      extractTimestamp b = .ok tb →
      newerVersion a b = (if goStringGe ta tb then .ok a else .ok b)) ∧
    (∀ a b t : String, extractTimestamp a = .ok t →
      extractTimestamp b = .ok t → newerVersion a b = .ok a) := by
  refine ⟨newerVersion_noRun_left, newerVersion_noRun_right, newerVersion_ok,
    ?_⟩
  intro a b t hta htb
  rw [newerVersion_ok a b t t hta htb, if_pos]
  exact goStringGe_refl t

/-- Witness for C2 on concrete versions: missing timestamp on the left,
missing on the right, a decided comparison, and a tie. -/
theorem newerVersion_timestamp_rule_witness :
    newerVersion ("v1.2.3") ("v0.0.0-20231101000000-bbbbbbbbbbbb") =
      .error (.noTimestampFound ("v1.2.3")) ∧
    newerVersion ("v0.0.0-20231201000000-aaaaaaaaaaaa") ("v1.2.3") =
      .error (.noTimestampFound ("v1.2.3")) ∧
    newerVersion ("v0.0.0-20231201000000-aaaaaaaaaaaa")
        ("v0.0.0-20231101000000-bbbbbbbbbbbb") =
      (if goStringGe ("20231201000000") ("20231101000000") then
        .ok ("v0.0.0-20231201000000-aaaaaaaaaaaa")
      else .ok ("v0.0.0-20231101000000-bbbbbbbbbbbb")) ∧
    newerVersion ("v0.0.0-20231201000000-aaaaaaaaaaaa")
        ("v1.1.1-0.20231201000000-cccccccccccc") =
      .ok ("v0.0.0-20231201000000-aaaaaaaaaaaa") :=
  ⟨newerVersion_timestamp_rule.1 _ _ (by decide),
   newerVersion_timestamp_rule.2.1 _ _ (by decide) (by decide),
   newerVersion_timestamp_rule.2.2.1 _ _ _ _ rfl rfl,
   newerVersion_timestamp_rule.2.2.2 _ _ _ rfl rfl⟩

/-- C8: timestamp extraction returns the leftmost run of 14 consecutive
decimal digits (no such run starts earlier), fails with the no-timestamp
error exactly when no 14-digit run occurs, yields `20231129151722` on
`v0.0.0-20231129151722-fdeea329fbba` and fails on `v1.2.3`. -/
theorem extractTimestamp_leftmost_run :
    (∀ s t, extractTimestamp s = .ok t →
      t.data.length = 14 ∧ t.data.all isDigitCh = true ∧
      ∃ p q, s.data = p ++ t.data ++ q ∧
        ∀ i, i < p.length → digitWindow (s.data.drop i) = false) ∧
    (∀ s, extractTimestamp s = .error (.noTimestampFound s) ↔
      containsRun14 s.data = false) ∧
    extractTimestamp ("v0.0.0-20231129151722-fdeea329fbba") =
      .ok ("20231129151722") ∧
    extractTimestamp ("v1.2.3") = .error (.noTimestampFound ("v1.2.3")) := by
  refine ⟨?_, ?_, rfl, rfl⟩
  · intro s t h
    unfold extractTimestamp at h
    cases haux : extractTimestampAux s.data with
    | none => rw [haux] at h; exact absurd h (by simp)
    | some u =>
      rw [haux] at h
      have hu : String.mk u = t := by injection h
      have hdata : t.data = u := by rw [← hu]
      rw [hdata]
      exact extractTimestampAux_some_spec s.data u haux
  · intro s
    rw [← extractTimestampAux_none_iff]
    unfold extractTimestamp
    cases haux : extractTimestampAux s.data with
    | none => simp
    | some u => simp

/-- Witness for C8 at the documented example version string. -/
theorem extractTimestamp_leftmost_run_witness :
    ("20231129151722" : String).data.length = 14 ∧
    ("20231129151722" : String).data.all isDigitCh = true ∧
    ∃ p q, ("v0.0.0-20231129151722-fdeea329fbba" : String).data =
        p ++ ("20231129151722" : String).data ++ q ∧
      ∀ i, i < p.length →
        digitWindow
          (("v0.0.0-20231129151722-fdeea329fbba" : String).data.drop i) =
          false :=
  extractTimestamp_leftmost_run.1 ("v0.0.0-20231129151722-fdeea329fbba")
    ("20231129151722") rfl

/-- A 14-digit window at the head yields a run. -/
theorem containsRun14_of_window (cs : List Char) (h : digitWindow cs = true) :
    containsRun14 cs = true := by
  cases cs with
  | nil =>
    unfold digitWindow at h
    simp at h
  | cons c cs => simp [containsRun14, h]

/-- A run in a suffix is a run in the whole list. -/
theorem containsRun14_append (p rest : List Char)
    (h : containsRun14 rest = true) : containsRun14 (p ++ rest) = true := by
  induction p with
  | nil => simpa
  | cons c p ih => simp [containsRun14, ih]

/-- Every string the classifier accepts contains a 14-digit run. -/
theorem containsRun14_of_isPseudoVersion (s : String)
    (h : isPseudoVersion s = true) : containsRun14 s.data = true := by
  obtain ⟨p, ts, hx, hdata, hts, hdig, hh, hhex⟩ :=
    (isPseudoVersion_iff_shape s).mp h
  have htake : (ts ++ '-' :: hx).take 14 = ts := by
    conv_lhs => rw [show (14 : Nat) = ts.length from hts.symm]
    exact List.take_left ts _
  have hw : digitWindow (ts ++ '-' :: hx) = true := by
    unfold digitWindow
    rw [htake, hts, hdig]
    rfl
  rw [hdata, List.append_assoc]
  exact containsRun14_append p _ (containsRun14_of_window _ hw)

/-- Every dependency the scanner emits has a classifier-accepted
version. -/
theorem mem_findPseudoVersionedDeps (inc : Bool) :
    ∀ (entries : List ManifestEntry) (d : dependency),
      d ∈ findPseudoVersionedDeps inc entries →
      isPseudoVersion d.version = true := by
  intro entries
  induction entries with
  | nil => intro d hd; simp [findPseudoVersionedDeps] at hd
  | cons e rest ih =>
    intro d hd
    by_cases hp : isPseudoVersion e.version = true
    · by_cases hi : (e.indirect && !inc) = true
      · rw [findPseudoVersionedDeps, if_neg (by simp [hp]), if_pos hi] at hd
        exact ih d hd
      · rw [findPseudoVersionedDeps, if_neg (by simp [hp]), if_neg hi] at hd
        rcases List.mem_cons.mp hd with heq | hmem
        · rw [heq]
          exact hp
        · exact ih d hmem
    · have hpf : isPseudoVersion e.version = false := by simpa using hp
      rw [findPseudoVersionedDeps, if_pos (by simp [hpf])] at hd
      exact ih d hd

/-- C5: the scanner emits a dependency iff the entry's version is a
pseudo-version and the entry is not excluded by the indirect policy; it
copies path and version and preserves input order — it equals a filter of
the entries followed by a projection. -/
theorem findPseudoVersionedDeps_filter_map :
    ∀ (entries : List ManifestEntry) (inc : Bool),
      findPseudoVersionedDeps inc entries =
        (entries.filter fun e =>
          isPseudoVersion e.version && !(e.indirect && !inc)).map
          fun e => ⟨e.path, e.version⟩ := by
  intro entries inc
  induction entries with
  | nil => rfl
  | cons e rest ih =>
    by_cases hp : isPseudoVersion e.version = true
    · by_cases hi : (e.indirect && !inc) = true
      · rw [findPseudoVersionedDeps, if_neg (by simp [hp]), if_pos hi]
        rw [List.filter_cons, if_neg (by simp [hp, hi])]
        exact ih
      · have hif : (e.indirect && !inc) = false := by simpa using hi
        rw [findPseudoVersionedDeps, if_neg (by simp [hp]), if_neg hi]
        rw [List.filter_cons, if_pos (by simp [hp, hif])]
        rw [List.map_cons, ih]
    · have hpf : isPseudoVersion e.version = false := by simpa using hp
      rw [findPseudoVersionedDeps, if_pos (by simp [hpf])]
      rw [List.filter_cons, if_neg (by simp [hpf])]
      exact ih

/-- C9: every dependency the scanner emits has a version ending in
14 digits, a hyphen, and 12 lowercase hex characters, and timestamp
extraction succeeds on it. -/
theorem scanner_output_invariant :
    ∀ (inc : Bool) (entries : List ManifestEntry) (d : dependency),
      d ∈ findPseudoVersionedDeps inc entries →
      (∃ p ts h, d.version.data = p ++ ts ++ '-' :: h ∧ ts.length = 14 ∧
        ts.all isDigitCh = true ∧ h.length = 12 ∧ h.all isHexLowerCh = true) ∧
      ∃ t, extractTimestamp d.version = .ok t := by
  intro inc entries d hd
  have hp := mem_findPseudoVersionedDeps inc entries d hd
  refine ⟨(isPseudoVersion_iff_shape _).mp hp, ?_⟩
  exact extractTimestamp_ok_of_run _ (containsRun14_of_isPseudoVersion _ hp)

/-- Witness for C9 on a one-entry manifest. -/
theorem scanner_output_invariant_witness :
    (∃ p ts h,
      (("v0.0.0-20231129151722-fdeea329fbba" : String)).data =
        p ++ ts ++ '-' :: h ∧ ts.length = 14 ∧ ts.all isDigitCh = true ∧
        h.length = 12 ∧ h.all isHexLowerCh = true) ∧
    ∃ t, extractTimestamp ("v0.0.0-20231129151722-fdeea329fbba") = .ok t :=
  scanner_output_invariant false
    [⟨("example.com/a"), ("v0.0.0-20231129151722-fdeea329fbba"), false⟩]
    ⟨("example.com/a"), ("v0.0.0-20231129151722-fdeea329fbba")⟩
    (by decide)

/-- Both branch candidates missing: the no-default-branch error. -/
theorem getLatestVersion_both_missing (r : Resolver) (m ea eb : String)
    (ha : r m ("main") = .error ea)
    (hca : strContains ea unknownRevisionMsg = true)
    (hb : r m ("master") = .error eb)
    (hcb : strContains eb unknownRevisionMsg = true) :
    getLatestVersion r m = .error .noDefaultBranch := by
  simp [getLatestVersion, runBranches, branches, collectVersions, ha, hb,
    hca, hcb, pickVersion]

/-- Main resolves, master is missing: main's version. -/
theorem getLatestVersion_main_only (r : Resolver) (m va eb : String)
    (ha : r m ("main") = .ok va)
    (hb : r m ("master") = .error eb)
    (hcb : strContains eb unknownRevisionMsg = true) :
    getLatestVersion r m = .ok va := by
  simp [getLatestVersion, runBranches, branches, collectVersions, ha, hb,
    hcb, pickVersion]

/-- Main is missing, master resolves: master's version. -/
theorem getLatestVersion_master_only (r : Resolver) (m ea vb : String)
    (ha : r m ("main") = .error ea)
    (hca : strContains ea unknownRevisionMsg = true)
    (hb : r m ("master") = .ok vb) :
    getLatestVersion r m = .ok vb := by
  simp [getLatestVersion, runBranches, branches, collectVersions, ha, hb,
    hca, pickVersion]

/-- Both branches resolve: the comparator decides. -/
theorem getLatestVersion_both_ok (r : Resolver) (m va vb : String)
    (ha : r m ("main") = .ok va) (hb : r m ("master") = .ok vb) :
    getLatestVersion r m = newerVersion va vb := by
  simp [getLatestVersion, runBranches, branches, collectVersions, ha, hb,
    pickVersion]

/-- C3: over the fixed candidate list main, master — both missing gives
the no-default-branch error, a single success returns that candidate's
version, and two successes return the version with the string-larger
embedded timestamp, ties going to main. -/
theorem getLatestVersion_candidate_outcomes :
    (∀ (r : Resolver) (m ea eb : String),
      r m ("main") = .error ea → strContains ea unknownRevisionMsg = true →
      r m ("master") = .error eb → strContains eb unknownRevisionMsg = true →
      getLatestVersion r m = .error .noDefaultBranch) ∧
    (∀ (r : Resolver) (m va eb : String),
      r m ("main") = .ok va →
      r m ("master") = .error eb → strContains eb unknownRevisionMsg = true →
      getLatestVersion r m = .ok va) ∧
    (∀ (r : Resolver) (m ea vb : String),
      r m ("main") = .error ea → strContains ea unknownRevisionMsg = true →
      r m ("master") = .ok vb →
      getLatestVersion r m = .ok vb) ∧
    (∀ (r : Resolver) (m va vb ta tb : String),
      r m ("main") = .ok va → r m ("master") = .ok vb →
      extractTimestamp va = .ok ta → extractTimestamp vb = .ok tb →
      getLatestVersion r m = (if goStringGe ta tb then .ok va else .ok vb)) := by
  refine ⟨getLatestVersion_both_missing, getLatestVersion_main_only,
    getLatestVersion_master_only, ?_⟩
  intro r m va vb ta tb ha hb hta htb
  rw [getLatestVersion_both_ok r m va vb ha hb,
    newerVersion_ok va vb ta tb hta htb]

/-- Witness for C3: a master-only module and a both-branches module. -/
theorem getLatestVersion_candidate_outcomes_witness :
    getLatestVersion resolverMasterOnly ("example.com/m") =
      .ok ("v0.0.0-20231201000000-aaaaaaaaaaaa") ∧
    getLatestVersion resolverBothOk ("example.com/m") =
      (if goStringGe ("20231201000000") ("20231201000000") then
        .ok ("v0.0.0-20231201000000-aaaaaaaaaaaa")
      else .ok ("v0.0.0-20231201000000-aaaaaaaaaaaa")) :=
  ⟨getLatestVersion_candidate_outcomes.2.2.1 resolverMasterOnly
      ("example.com/m") ("unknown revision abc")
      ("v0.0.0-20231201000000-aaaaaaaaaaaa") rfl (by decide) rfl,
   getLatestVersion_candidate_outcomes.2.2.2 resolverBothOk
      ("example.com/m") _ _ _ _ rfl rfl rfl rfl⟩

/-- C4: a branch-candidate failure classified as unknown revision makes
the resolver continue with the remaining candidate, while any other
failure on main aborts with that error — for every resolver behaviour on
master, so master is never consulted. -/
theorem getLatestVersion_error_abort_policy :
    ∀ (r : Resolver) (m e : String), r m ("main") = .error e →
      (strContains e unknownRevisionMsg = true →
        getLatestVersion r m = runBranches r m [("master")]) ∧
      (strContains e unknownRevisionMsg = false →
        getLatestVersion r m = .error (.resolverFailure e)) := by
  intro r m e ha
  constructor
  · intro hc
    simp [getLatestVersion, runBranches, branches, collectVersions, ha, hc]
  · intro hc
    simp [getLatestVersion, runBranches, branches, collectVersions, ha, hc]

/-- Witness for C4: a continue on unknown revision and an abort on a
network failure. -/
theorem getLatestVersion_error_abort_policy_witness :
    getLatestVersion resolverMasterOnly ("example.com/m") =
      runBranches resolverMasterOnly ("example.com/m") [("master")] ∧
    getLatestVersion resolverHardFail ("example.com/m") =
      .error (.resolverFailure ("network failure")) :=
  ⟨(getLatestVersion_error_abort_policy resolverMasterOnly ("example.com/m")
      ("unknown revision abc") rfl).1 (by decide),
   (getLatestVersion_error_abort_policy resolverHardFail ("example.com/m")
      ("network failure") rfl).2 (by decide)⟩

/-- C10: when both branches resolve but a resolved version lacks a
14-digit run, the resolver fails with the no-timestamp error from the
comparison, from main's version first. -/
theorem getLatestVersion_noTimestamp_failure :
    ∀ (r : Resolver) (m va vb : String),
      r m ("main") = .ok va → r m ("master") = .ok vb →
      (containsRun14 va.data = false →
        getLatestVersion r m = .error (.noTimestampFound va)) ∧
      (containsRun14 va.data = true → containsRun14 vb.data = false →
        getLatestVersion r m = .error (.noTimestampFound vb)) := by
  intro r m va vb ha hb
  constructor
  · intro hna
    rw [getLatestVersion_both_ok r m va vb ha hb]
    exact newerVersion_noRun_left va vb hna
  · intro hra hnb
    rw [getLatestVersion_both_ok r m va vb ha hb]
    exact newerVersion_noRun_right va vb hra hnb

/-- Witness for C10: both branch tips carry the tagged version v1.2.3. -/
theorem getLatestVersion_noTimestamp_failure_witness :
    getLatestVersion resolverTagged ("example.com/m") =
      .error (.noTimestampFound ("v1.2.3")) :=
  (getLatestVersion_noTimestamp_failure resolverTagged ("example.com/m")
    ("v1.2.3") ("v1.2.3") rfl rfl).1 (by decide)

/-- C6: the first dependency whose resolution fails aborts the whole run
with that error wrapped in the dependency's module path; no update list
is returned. -/
theorem checkForUpdates_fail_fast :
    ∀ (r : Resolver) (pre post : List dependency) (d : dependency)
      (e : GoError),
      (∀ d' ∈ pre, ∃ v, getLatestVersion r d'.module = .ok v) →
      getLatestVersion r d.module = .error e →
      checkForUpdates r (pre ++ d :: post) = .error (.checking d.module e) := by
  intro r pre post d e
  induction pre with
  | nil =>
    intro _ herr
    simp [checkForUpdates, herr]
  | cons d' pre ih =>
    intro hpre herr
    obtain ⟨v, hv⟩ := hpre d' (List.mem_cons_self d' pre)
    have hrest := ih (fun x hx => hpre x (List.mem_cons_of_mem d' hx)) herr
    simp [checkForUpdates, hv, hrest]

/-- Witness for C6: the first dependency resolves, the second hard-fails,
and the run reports the wrapped failure with no partial list. -/
theorem checkForUpdates_fail_fast_witness :
    checkForUpdates resolverPerModule
      [⟨("good.example/a"), ("v0.0.0-20231101000000-bbbbbbbbbbbb")⟩,
       ⟨("bad.example/b"), ("v1.0.0")⟩] =
      .error (.checking ("bad.example/b") (.resolverFailure ("network down"))) :=
  checkForUpdates_fail_fast resolverPerModule
    [⟨("good.example/a"), ("v0.0.0-20231101000000-bbbbbbbbbbbb")⟩] []
    ⟨("bad.example/b"), ("v1.0.0")⟩ (.resolverFailure ("network down"))
    (by
      intro d' hd'
      rw [List.mem_singleton] at hd'
      subst hd'
      exact ⟨("v0.0.0-20231201000000-aaaaaaaaaaaa"), rfl⟩)
    rfl

/-- C7: when every dependency resolves, the run returns exactly one
update per dependency whose current version differs (string inequality)
from its resolved latest, in input order. -/
theorem checkForUpdates_success_updates :
    ∀ (r : Resolver) (deps : List dependency),
      (∀ d ∈ deps, ∃ v, getLatestVersion r d.module = .ok v) →
      checkForUpdates r deps = .ok (expectedUpdates r deps) := by
  intro r deps
  induction deps with
  | nil => intro _; rfl
  | cons d rest ih =>
    intro hall
    obtain ⟨v, hv⟩ := hall d (List.mem_cons_self d rest)
    have hrest := ih (fun x hx => hall x (List.mem_cons_of_mem d hx))
    by_cases heq : d.version = v
    · simp [checkForUpdates, expectedUpdates, List.filterMap_cons, hv,
        hrest, heq]
    · simp [checkForUpdates, expectedUpdates, List.filterMap_cons, hv,
        hrest, heq]

/-- Witness for C7: one up-to-date dependency and one stale one. -/
theorem checkForUpdates_success_updates_witness :
    checkForUpdates resolverBothOk
      [⟨("a.example/x"), ("v0.0.0-20231201000000-aaaaaaaaaaaa")⟩,
       ⟨("b.example/y"), ("v0.0.0-20231101000000-bbbbbbbbbbbb")⟩] =
      .ok (expectedUpdates resolverBothOk
        [⟨("a.example/x"), ("v0.0.0-20231201000000-aaaaaaaaaaaa")⟩,
         ⟨("b.example/y"), ("v0.0.0-20231101000000-bbbbbbbbbbbb")⟩]) :=
  checkForUpdates_success_updates resolverBothOk
    [⟨("a.example/x"), ("v0.0.0-20231201000000-aaaaaaaaaaaa")⟩,
     ⟨("b.example/y"), ("v0.0.0-20231101000000-bbbbbbbbbbbb")⟩]
    (fun _ _ => ⟨("v0.0.0-20231201000000-aaaaaaaaaaaa"), rfl⟩)

end CheckDeps
